import Mathlib

/-!
# CapacitiveCurrent: a verification development

A shallow embedding of `CapacitiveCurrent.cpp` / `CapacitiveCurrent.h`
(a charge-time current meter built on the AVR Timer1 input capture unit)
and theorems about its measurement state machine.

Machine integers are natural numbers with explicit reduction modulo the
register width.  The static fields of the class and the hardware registers
it touches are the fields of one `State` record; every member function is
a function `State → State`.  The calls made to the inline hardware helpers
of the header are recorded, in order, in the ghost field `trace`.
-/

namespace CapacitiveCurrent

/-! ## Build-time constants -/

/-- Modelled from the spec: the clock frequency macro of the Arduino build
(absent from the sources); the spec fixes the clock at 16,000,000 Hz. -/
def F_CPU : Nat := 16000000

/-- Source: `const double TIMEOUT = 20; // s`. -/
def TIMEOUT : Nat := 20

/-- Source: `const long DISCHARGE_TIME = 10; // us`. -/
def DISCHARGE_TIME : Nat := 10

/-- The avr-libc bit-value helper, `(1 << (bit))`. -/
def _BV (bit : Nat) : Nat := 1 <<< bit

/-- Bit `CS10` of `TCCR1B` (clock select, prescaler 1), from the device header. -/
def CS10 : Nat := 0
/-- Bit `ICES1` of `TCCR1B` (input capture edge select), from the device header. -/
def ICES1 : Nat := 6
/-- Bit `TOIE1` of `TIMSK1` (overflow interrupt enable), from the device header. -/
def TOIE1 : Nat := 0
/-- Bit `ICIE1` of `TIMSK1` (input capture interrupt enable), from the device header. -/
def ICIE1 : Nat := 5
/-- Bit `ACIC` of `ACSR` (analog comparator input capture enable), from the device header. -/
def ACIC : Nat := 2
/-- Bit `DDE6` of `DDRE` (data direction of port E pin 6), from the device header. -/
def DDE6 : Nat := 6
/-- Bit `AIN0D` of `DIDR1` (digital input disable of AIN0), from the device header. -/
def AIN0D : Nat := 0

/-- Bitwise complement of an operand, as stored back into an 8-bit register. -/
def not8 (x : Nat) : Nat := 0xff ^^^ (x % 256)

/-! ## Binary floating point for the constant expressions

The constants `REF_VOLTAGE`, `CAPACITANCE` and `TIMEOUT` are `double`s, so
the two constant expressions of the source are evaluated in binary floating
point, round to nearest, ties to even.  A value is kept as an exact fraction
`num / den`; only values of magnitude at least one occur.
-/

/-- A nonnegative fraction `num / den`. -/
structure Frac where
  num : Nat
  den : Nat
deriving DecidableEq, Repr

/-- Number of binary digits of `n`, computed with `fuel` halvings. -/
def bitLen : Nat → Nat → Nat
  | 0, _ => 0
  | fuel + 1, n => if n = 0 then 0 else bitLen fuel (n / 2) + 1

/-- Nearest natural number to `n / d`, ties to the even neighbour. -/
def roundHalfEven (n d : Nat) : Nat :=
  let q := n / d
  let r := n % d
  if 2 * r < d then q
  else if d < 2 * r then q + 1
  else if q % 2 = 0 then q else q + 1

/-- Round a fraction of magnitude at least one to `prec` significant bits. -/
def fpRound (prec : Nat) (x : Frac) : Frac :=
  let len := bitLen (x.num / x.den) (x.num / x.den)
  if len ≤ prec then
    let k := prec - len
    ⟨roundHalfEven (x.num * 2 ^ k) x.den, 2 ^ k⟩
  else
    let k := len - prec
    ⟨roundHalfEven x.num (x.den * 2 ^ k) * 2 ^ k, 1⟩

/-- Floating-point product. -/
def fmul (prec : Nat) (a b : Frac) : Frac :=
  fpRound prec ⟨a.num * b.num, a.den * b.den⟩

/-- Floating-point quotient. -/
def fdiv (prec : Nat) (a b : Frac) : Frac :=
  fpRound prec ⟨a.num * b.den, a.den * b.num⟩

/-- Conversion of an integer to floating point. -/
def ofNat (prec : Nat) (n : Nat) : Frac := fpRound prec ⟨n, 1⟩

/-- Source: `const double REF_VOLTAGE = 1.1; // V`. -/
def REF_VOLTAGE (prec : Nat) : Frac := fpRound prec ⟨11, 10⟩

/-- Source: `const double CAPACITANCE = 1.3; // nF`. -/
def CAPACITANCE (prec : Nat) : Frac := fpRound prec ⟨13, 10⟩

/-- Significand width of `double` on the AVR target (avr-gcc maps `double`
to IEEE binary32). -/
def DBL_MANT_DIG : Nat := 24

/-- Source: `(uint32_t)(CAPACITANCE * REF_VOLTAGE * F_CPU * 10)`, the
numerator of `calculateValue`, with `double` of `prec` significant bits. -/
def numeratorAt (prec : Nat) : Nat :=
  let x := fmul prec (fmul prec (fmul prec (CAPACITANCE prec) (REF_VOLTAGE prec))
    (ofNat prec F_CPU)) (ofNat prec 10)
  (x.num / x.den) % 2 ^ 32

/-- Source: `F_CPU * TIMEOUT / 65536`, the right-hand side of the timeout
comparison in `onOverflow`, with `double` of `prec` significant bits. -/
def timeoutThresholdAt (prec : Nat) : Frac :=
  fdiv prec (fmul prec (ofNat prec F_CPU) (ofNat prec TIMEOUT)) (ofNat prec 65536)

/-- Source: `(uint32_t)(CAPACITANCE * REF_VOLTAGE * F_CPU * 10)` on the target. -/
def numerator : Nat := numeratorAt DBL_MANT_DIG

/-- Source: the test `m_highCount > F_CPU * TIMEOUT / 65536` of `onOverflow`;
the 16-bit left operand converts to floating point without rounding. -/
def timeoutReached (highCount : Nat) : Bool :=
  let t := timeoutThresholdAt DBL_MANT_DIG
  decide (t.num < highCount * t.den)

/-! ## State -/

/-- Source: the anonymous `enum { IDLE, CHARGING, DISCHARGING }` held in
`m_timerMode`. -/
inductive TimerMode where
  | IDLE
  | CHARGING
  | DISCHARGING
deriving DecidableEq, Repr

/-- A call to one of the hardware helpers of the header, or to the
interrupt-flag instructions used by the accessors. -/
inductive HwCall where
  | charge
  | discharge
  | enableCapture
  | disableCapture
  | setTimerCounter (value : Nat)
  | stopTimer
  | startTimer
  | cli
  | sei
deriving DecidableEq, Repr

/-- The static fields of `CapacitiveCurrent`, the hardware registers the
class writes, and the ghost trace of hardware helper calls. -/
structure State where
  m_value : Nat
  m_period : Nat
  m_highCount : Nat
  m_timerMode : TimerMode
  TCNT1 : Nat
  TCCR1A : Nat
  TCCR1B : Nat
  TIMSK1 : Nat
  DIDR1 : Nat
  DDRE : Nat
  ACSR : Nat
  SREG_I : Bool
  trace : List HwCall
deriving DecidableEq, Repr

/-- Source: the static field initialisers (`m_value = 0`, `m_period = 0`,
`m_highCount = 0`, `m_timerMode = IDLE`), with the given register contents. -/
def initialState (tcnt1 tccr1a tccr1b timsk1 didr1 ddre acsr : Nat) : State :=
  { m_value := 0, m_period := 0, m_highCount := 0, m_timerMode := TimerMode.IDLE,
    TCNT1 := tcnt1, TCCR1A := tccr1a, TCCR1B := tccr1b, TIMSK1 := timsk1,
    DIDR1 := didr1, DDRE := ddre, ACSR := acsr, SREG_I := true, trace := [] }

/-! ## Hardware helpers (header) -/

/-- Source: `charge()`, `DDRE &= ~_BV(DDE6);`. -/
def charge (s : State) : State :=
  { s with DDRE := s.DDRE &&& not8 (_BV DDE6), trace := s.trace ++ [HwCall.charge] }

/-- Source: `discharge()`, `DDRE |= _BV(DDE6);`. -/
def discharge (s : State) : State :=
  { s with DDRE := (s.DDRE ||| _BV DDE6) % 256, trace := s.trace ++ [HwCall.discharge] }

/-- Source: `enableCapture()`, `ACSR |= _BV(ACIC);`. -/
def enableCapture (s : State) : State :=
  { s with ACSR := (s.ACSR ||| _BV ACIC) % 256, trace := s.trace ++ [HwCall.enableCapture] }

/-- Source: `disableCapture()`, `ACSR &= ~_BV(ACIC);`. -/
def disableCapture (s : State) : State :=
  { s with ACSR := s.ACSR &&& not8 (_BV ACIC), trace := s.trace ++ [HwCall.disableCapture] }

/-- Source: `setTimerCounter(uint32_t value)`:
`TCNT1 = value & 0xffff; m_highCount = value >> 16;`. -/
def setTimerCounter (s : State) (value : Nat) : State :=
  { s with
    TCNT1 := (value % 2 ^ 32) &&& 0xffff,
    m_highCount := ((value % 2 ^ 32) >>> 16) % 2 ^ 16,
    trace := s.trace ++ [HwCall.setTimerCounter (value % 2 ^ 32)] }

/-- Source: `stopTimer()`, `TCCR1B &= ~7;`. -/
def stopTimer (s : State) : State :=
  { s with TCCR1B := s.TCCR1B &&& not8 7, trace := s.trace ++ [HwCall.stopTimer] }

/-- Source: `startTimer()`, `TCCR1B |= _BV(CS10);`. -/
def startTimer (s : State) : State :=
  { s with TCCR1B := (s.TCCR1B ||| _BV CS10) % 256, trace := s.trace ++ [HwCall.startTimer] }

/-! ## Member functions (implementation file) -/

/-- Source: `calculateValue(uint32_t period)`. -/
def calculateValue (period : Nat) : Nat :=
  if period = 0 then
    0xffffffff
  else
    numerator / period

/-- Source: `setValue(uint16_t lowCount)`:
`m_period = ((uint32_t)m_highCount << 16) | lowCount;`
`m_value = calculateValue(m_period);`. -/
def setValue (s : State) (lowCount : Nat) : State :=
  let period := ((s.m_highCount <<< 16) % 2 ^ 32) ||| (lowCount % 2 ^ 16)
  { s with m_period := period, m_value := calculateValue period }

/-- Source: the argument of `setTimerCounter` in `startDischargeCycle`,
`(uint16_t)-(int16_t)(DISCHARGE_TIME * F_CPU / 1000000L)`. -/
def dischargePreload : Nat :=
  (2 ^ 16 - (DISCHARGE_TIME * F_CPU / 1000000) % 2 ^ 16) % 2 ^ 16

/-- Source: `startDischargeCycle()`. -/
def startDischargeCycle (s : State) : State :=
  let s1 := { s with m_timerMode := TimerMode.DISCHARGING }
  let s2 := discharge s1
  let s3 := setTimerCounter s2 dischargePreload
  let s4 := disableCapture s3
  startTimer s4

/-- Source: `startChargeCycle()`. -/
def startChargeCycle (s : State) : State :=
  let s1 := stopTimer s
  let s2 := { s1 with m_timerMode := TimerMode.CHARGING }
  let s3 := setTimerCounter s2 0
  let s4 := enableCapture s3
  let s5 := charge s4
  startTimer s5

/-- Source: `setup()`. -/
def setup (s : State) : State :=
  let s1 := { s with DIDR1 := (s.DIDR1 ||| _BV AIN0D) % 256 }
  let s2 := { s1 with TCCR1A := 0 }
  let s3 := { s2 with TCCR1B := 0 }
  let s4 := { s3 with TCCR1B := (s3.TCCR1B ||| _BV ICES1) % 256 }
  let s5 := { s4 with TIMSK1 := (s4.TIMSK1 ||| (_BV ICIE1 ||| _BV TOIE1)) % 256 }
  startDischargeCycle s5

/-- Source: `update()`. -/
def update (s : State) : State :=
  if s.m_timerMode = TimerMode.IDLE then startChargeCycle s else s

/-- Source: `onOverflow()`, the handler of the Timer1 overflow interrupt. -/
def onOverflow (s : State) : State :=
  if s.m_timerMode = TimerMode.DISCHARGING then
    { stopTimer s with m_timerMode := TimerMode.IDLE }
  else
    let s1 := { s with m_highCount := (s.m_highCount + 1) % 2 ^ 16 }
    if timeoutReached s1.m_highCount then
      startDischargeCycle (setValue (stopTimer s1) 0)
    else
      let maxValue := calculateValue ((s1.m_highCount <<< 16) % 2 ^ 32)
      if s1.m_value > maxValue then { s1 with m_value := maxValue } else s1

/-- Source: `onCapture()`, the handler of the Timer1 capture interrupt;
`icr1` is the content of the capture register `ICR1`. -/
def onCapture (s : State) (icr1 : Nat) : State :=
  startDischargeCycle (setValue (stopTimer s) icr1)

/-- Source: `getValue()`: `cli(); value = m_value; sei(); return value;`. -/
def getValue (s : State) : Nat × State :=
  let s1 := { s with SREG_I := false, trace := s.trace ++ [HwCall.cli] }
  let value := s1.m_value
  let s2 := { s1 with SREG_I := true, trace := s1.trace ++ [HwCall.sei] }
  (value, s2)

/-- Source: `getPeriod()`: `return m_period;`. -/
def getPeriod (s : State) : Nat × State :=
  (s.m_period, s)

/-- The state after `n` consecutive overflow interrupts. -/
def overflows : Nat → State → State
  | 0, s => s
  | n + 1, s => overflows n (onOverflow s)

/-- The helper calls issued between an earlier state and a later one. -/
def issued (before after : State) : List HwCall :=
  after.trace.drop before.trace.length

/-- The clock-select bits `CS12:0` of `TCCR1B`, the bits cleared by
`stopTimer`; the value 1 selects the system clock with prescaler 1. -/
def clockSelect (s : State) : Nat := s.TCCR1B &&& 7

/-- The timer counts exactly when its clock-select bits are not all zero. -/
def timerRunning (s : State) : Bool := decide (clockSelect s ≠ 0)

/-- The comparator output triggers the Timer1 capture when `ACIC` is set. -/
def captureEnabled (s : State) : Bool := s.ACSR.testBit ACIC

/-- The sense pin is an output (discharging the capacitor) when `DDE6` is
set, and an input (letting it charge) when the bit is clear. -/
def pinDischarging (s : State) : Bool := s.DDRE.testBit DDE6

/-- A sample state in a charge cycle with high word `h` and stored value `v`,
as left by `startChargeCycle` and `h` overflows. -/
def chargingAt (h v : Nat) : State :=
  { m_value := v, m_period := 0, m_highCount := h, m_timerMode := TimerMode.CHARGING,
    TCNT1 := 0, TCCR1A := 0, TCCR1B := 65, TIMSK1 := 33, DIDR1 := 1, DDRE := 0,
    ACSR := 4, SREG_I := true, trace := [] }

/-- A sample state in a discharge cycle, as left by `setup`. -/
def dischargingSample : State :=
  { m_value := 0, m_period := 0, m_highCount := 0, m_timerMode := TimerMode.DISCHARGING,
    TCNT1 := 65376, TCCR1A := 0, TCCR1B := 65, TIMSK1 := 33, DIDR1 := 1, DDRE := 64,
    ACSR := 0, SREG_I := true, trace := [] }

/-- A sample idle state, as left by the overflow that ends a discharge. -/
def idleSample : State :=
  { m_value := 1000, m_period := 228800, m_highCount := 0, m_timerMode := TimerMode.IDLE,
    TCNT1 := 0, TCCR1A := 0, TCCR1B := 64, TIMSK1 := 33, DIDR1 := 1, DDRE := 64,
    ACSR := 0, SREG_I := true, trace := [] }

/-- Recognises a call that reprograms the timer counter. -/
def isSetTimerCounter : HwCall → Bool
  | HwCall.setTimerCounter _ => true
  | _ => false

/-- The reference definition of the value calculator, in the words of the
specification: the maximum sentinel for a zero period, else `floor (K / period)`
with `K = 228,800,000`. -/
def calculateValueRef (period : Nat) : Nat :=
  if period = 0 then 4294967295 else 228800000 / period

/-- An entry point of the class as its callers see it: the two host calls
and the two interrupt handlers; a capture carries the content of `ICR1`. -/
inductive Event where
  | setup
  | update
  | overflow
  | capture (icr1 : Nat)
deriving DecidableEq, Repr

/-- The effect of one event on the state. -/
def step (s : State) : Event → State
  | Event.setup => setup s
  | Event.update => update s
  | Event.overflow => onOverflow s
  | Event.capture icr1 => onCapture s icr1

/-- The state after a sequence of events, oldest first. -/
def run (s : State) (es : List Event) : State := es.foldl step s

/-- The state reached from the initial state of the static fields, with the
given register contents, by a sequence of events. -/
def reached (tcnt1 tccr1a tccr1b timsk1 didr1 ddre acsr : Nat) (es : List Event) : State :=
  run (initialState tcnt1 tccr1a tccr1b timsk1 didr1 ddre acsr) es

/-- The high word stays at or below the timeout threshold and is zero in a
discharge cycle. -/
def HighWordInv (s : State) : Prop :=
  s.m_highCount ≤ 4882 ∧ (s.m_timerMode = TimerMode.DISCHARGING → s.m_highCount = 0)

/-- The stored value never exceeds the value computed from the stored period. -/
def ValueInv (s : State) : Prop :=
  s.m_value ≤ calculateValue s.m_period

/-- The hardware follows the mode: the timer runs exactly outside Idle, the
capture trigger is enabled and the pin is in charge mode exactly in Charging,
and a running timer has the clock-select bits `001`. -/
def HardwareInv (s : State) : Prop :=
  (timerRunning s = true ↔ s.m_timerMode ≠ TimerMode.IDLE) ∧
  (captureEnabled s = true ↔ s.m_timerMode = TimerMode.CHARGING) ∧
  (pinDischarging s = false ↔ s.m_timerMode = TimerMode.CHARGING) ∧
  (timerRunning s = true → clockSelect s = 1)

/-! ## Preemption of the accessors by the interrupt handlers

The target is an 8-bit machine: a read of a 32-bit static field from the main
context is four byte loads, least significant byte first.  Between two loads
an interrupt handler runs to completion if, and only if, the global interrupt
flag `SREG_I` is set; with the flag clear the interrupt stays pending until
after the flag is set again.
-/

/-- An interrupt request: one of the two handlers bound to the Timer1 vectors;
a capture carries the content of `ICR1`. -/
inductive Irq where
  | overflow
  | capture (icr1 : Nat)
deriving DecidableEq, Repr

/-- Source: the two `ISR` bodies, `TIMER1_OVF_vect` and `TIMER1_CAPT_vect`. -/
def handle (s : State) : Irq → State
  | Irq.overflow => onOverflow s
  | Irq.capture icr1 => onCapture s icr1

/-- The handlers of the requests raised at one point of the main context:
they run, in order, when `SREG_I` is set, and not at all when it is clear. -/
def preempt (s : State) (irqs : List Irq) : State :=
  if s.SREG_I then irqs.foldl handle s else s

/-- Byte `i` of a stored value. -/
def byteOf (v i : Nat) : Nat := (v >>> (8 * i)) % 256

/-- A main-context read of a 32-bit field as four byte loads, with the
requests `p1`, `p2`, `p3` raised between consecutive loads; the result is the
value assembled from the four bytes, and the state after the last load. -/
def readField (field : State → Nat) (s : State) (p1 p2 p3 : List Irq) : Nat × State :=
  let b0 := byteOf (field s) 0
  let s1 := preempt s p1
  let b1 := byteOf (field s1) 1
  let s2 := preempt s1 p2
  let b2 := byteOf (field s2) 2
  let s3 := preempt s2 p3
  let b3 := byteOf (field s3) 3
  (b0 + 256 * b1 + 65536 * b2 + 16777216 * b3, s3)

/-- Source: `getValue()`, `cli(); value = m_value; sei(); return value;`, with
the interrupt requests `p1`, `p2`, `p3` raised between the byte loads of the
read. -/
def getValueC (s : State) (p1 p2 p3 : List Irq) : Nat × State :=
  let s1 := { s with SREG_I := false, trace := s.trace ++ [HwCall.cli] }
  let r := readField State.m_value s1 p1 p2 p3
  let s2 := { r.2 with SREG_I := true, trace := r.2.trace ++ [HwCall.sei] }
  (r.1, s2)

/-- Source: `getPeriod()`, `return m_period;`, with the interrupt requests
`p1`, `p2`, `p3` raised between the byte loads of the read. -/
def getPeriodC (s : State) (p1 p2 p3 : List Irq) : Nat × State :=
  readField State.m_period s p1 p2 p3

/-! ## Constants evaluated -/

theorem numerator_eq : numerator = 228800000 := by decide

theorem numeratorAt_binary64 : numeratorAt 53 = 228800000 := by decide

theorem timeoutThreshold_eq : timeoutThresholdAt DBL_MANT_DIG = ⟨10000000, 2048⟩ := by
  decide

theorem timeoutThresholdAt_binary64 :
    timeoutThresholdAt 53 = ⟨5368709120000000, 1099511627776⟩ := by decide

theorem timeoutReached_iff (h : Nat) : timeoutReached h = true ↔ 4882 < h := by
  unfold timeoutReached
  rw [timeoutThreshold_eq]
  simp only [decide_eq_true_eq]
  omega

theorem timeoutReached_eq_false_iff (h : Nat) : timeoutReached h = false ↔ h ≤ 4882 := by
  rw [← Bool.not_eq_true, timeoutReached_iff]
  omega

theorem dischargePreload_eq : dischargePreload = 65376 := by decide

/-! ## Arithmetic of the simulated 32-bit counter -/

theorem shiftLeft16_eq (h : Nat) : h <<< 16 = h * 65536 := by
  rw [Nat.shiftLeft_eq]

theorem shiftLeft16_mod (h : Nat) (hh : h < 2 ^ 16) : (h <<< 16) % 2 ^ 32 = h * 65536 := by
  rw [shiftLeft16_eq]
  apply Nat.mod_eq_of_lt
  have : (2 : Nat) ^ 16 = 65536 := by norm_num
  have : (2 : Nat) ^ 32 = 4294967296 := by norm_num
  omega

theorem shiftLeft16_or (h l : Nat) (hl : l < 2 ^ 16) : (h <<< 16) ||| l = h * 65536 + l := by
  rw [shiftLeft16_eq, Nat.mul_comm]
  exact (Nat.mul_add_lt_is_or hl h).symm

theorem period_eq (h l : Nat) (hh : h < 2 ^ 16) (hl : l < 2 ^ 16) :
    ((h <<< 16) % 2 ^ 32) ||| (l % 2 ^ 16) = h * 65536 + l := by
  have key := shiftLeft16_or h l hl
  rw [shiftLeft16_eq] at key
  rw [Nat.mod_eq_of_lt hl, shiftLeft16_mod h hh, key]

/-! ## The value calculator -/

theorem calculateValue_zero : calculateValue 0 = 4294967295 := by
  simp [calculateValue]

theorem calculateValue_pos (p : Nat) (hp : 0 < p) : calculateValue p = 228800000 / p := by
  have : p ≠ 0 := by omega
  simp [calculateValue, this, numerator_eq]

theorem calculateValue_eq_zero (p : Nat) (hp : 228800000 < p) : calculateValue p = 0 := by
  rw [calculateValue_pos p (by omega)]
  exact Nat.div_eq_of_lt hp

theorem calculateValue_le_max (p : Nat) : calculateValue p ≤ 4294967295 := by
  rcases Nat.eq_zero_or_pos p with h | h
  · rw [h, calculateValue_zero]
  · rw [calculateValue_pos p h]
    exact le_trans (Nat.div_le_self _ _) (by norm_num)

theorem calculateValue_anti (p q : Nat) (hpq : p ≤ q) :
    calculateValue q ≤ calculateValue p := by
  rcases Nat.eq_zero_or_pos p with h | h
  · rw [h, calculateValue_zero]
    exact calculateValue_le_max q
  · rw [calculateValue_pos p h, calculateValue_pos q (by omega)]
    exact Nat.div_le_div_left hpq h

/-! ## Register bits -/

theorem testBit_not8 (x i : Nat) :
    (not8 x).testBit i = (decide (i < 8) && !x.testBit i) := by
  have hff : (0xff : Nat) = 2 ^ 8 - 1 := by norm_num
  have h8 : (256 : Nat) = 2 ^ 8 := by norm_num
  unfold not8
  rw [Nat.testBit_xor, hff, h8, Nat.testBit_two_pow_sub_one, Nat.testBit_mod_two_pow]
  by_cases h : i < 8 <;> simp [h]

theorem testBit_BV (b i : Nat) : (_BV b).testBit i = decide (b = i) := by
  unfold _BV
  rw [Nat.one_shiftLeft, Nat.testBit_two_pow]

theorem testBit_seven (i : Nat) : Nat.testBit 7 i = decide (i < 3) := by
  have h7 : (7 : Nat) = 2 ^ 3 - 1 := by norm_num
  rw [h7, Nat.testBit_two_pow_sub_one]

theorem testBit_mod256 (x i : Nat) :
    (x % 256).testBit i = (decide (i < 8) && x.testBit i) := by
  have h8 : (256 : Nat) = 2 ^ 8 := by norm_num
  rw [h8, Nat.testBit_mod_two_pow]

/-- Setting bit `b` of an 8-bit register. -/
theorem testBit_set (r b i : Nat) :
    ((r ||| _BV b) % 256).testBit i = (decide (i < 8) && (r.testBit i || decide (b = i))) := by
  rw [testBit_mod256, Nat.testBit_or, testBit_BV]

/-- Clearing bit `b` of an 8-bit register. -/
theorem testBit_clear (r b i : Nat) :
    (r &&& not8 (_BV b)).testBit i =
      (r.testBit i && (decide (i < 8) && !decide (b = i))) := by
  rw [Nat.testBit_and, testBit_not8, testBit_BV]

/-- After `stopTimer` the clock-select bits are zero. -/
theorem and_not8_seven (r : Nat) : (r &&& not8 7) &&& 7 = 0 := by
  apply Nat.eq_of_testBit_eq
  intro i
  rw [Nat.testBit_and, Nat.testBit_and, testBit_not8, testBit_seven, Nat.zero_testBit]
  by_cases h3 : i < 3 <;> simp [h3]

/-- After `stopTimer` followed by `startTimer` the clock-select bits are `001`. -/
theorem stop_start_clockSelect (r : Nat) : (((r &&& not8 7) ||| _BV CS10) % 256) &&& 7 = 1 := by
  apply Nat.eq_of_testBit_eq
  intro i
  have h1 : Nat.testBit 1 i = decide (0 = i) := testBit_BV 0 i
  rw [Nat.testBit_and, testBit_mod256, Nat.testBit_or, Nat.testBit_and, testBit_not8,
    testBit_BV, testBit_seven, h1]
  by_cases h0 : 0 = i
  · subst h0; simp [CS10]
  · by_cases h3 : i < 3 <;> simp [h0, h3, CS10]

/-- After `startTimer` the timer runs: bit `CS10` is set. -/
theorem start_clockSelect_ne_zero (r : Nat) : ((r ||| _BV CS10) % 256) &&& 7 ≠ 0 := by
  intro h
  have h0 := congrArg (fun n => Nat.testBit n 0) h
  simp only [Nat.testBit_and, testBit_set, testBit_seven, Nat.zero_testBit] at h0
  simp [CS10] at h0

/-! ## Field-wise description of the operations -/

theorem startChargeCycle_timerMode (s : State) :
    (startChargeCycle s).m_timerMode = TimerMode.CHARGING := rfl

theorem startChargeCycle_trace (s : State) :
    (startChargeCycle s).trace = s.trace ++ [HwCall.stopTimer, HwCall.setTimerCounter 0,
      HwCall.enableCapture, HwCall.charge, HwCall.startTimer] := by
  simp [startChargeCycle, startTimer, charge, enableCapture, setTimerCounter, stopTimer]

theorem update_idle (s : State) (hm : s.m_timerMode = TimerMode.IDLE) :
    update s = startChargeCycle s := by
  simp [update, hm]

theorem update_not_idle (s : State) (hm : s.m_timerMode ≠ TimerMode.IDLE) :
    update s = s := by
  simp [update, hm]

theorem issued_append (s t : State) (l : List HwCall) (h : t.trace = s.trace ++ l) :
    issued s t = l := by
  unfold issued
  rw [h, List.drop_left]

theorem issued_self (s : State) : issued s s = [] := by
  simp [issued]

theorem startDischargeCycle_timerMode (s : State) :
    (startDischargeCycle s).m_timerMode = TimerMode.DISCHARGING := rfl

theorem startDischargeCycle_value (s : State) :
    (startDischargeCycle s).m_value = s.m_value := rfl

theorem startDischargeCycle_period (s : State) :
    (startDischargeCycle s).m_period = s.m_period := rfl

theorem startDischargeCycle_trace (s : State) :
    (startDischargeCycle s).trace = s.trace ++ [HwCall.discharge,
      HwCall.setTimerCounter 65376, HwCall.disableCapture, HwCall.startTimer] := by
  simp [startDischargeCycle, startTimer, disableCapture, setTimerCounter, discharge,
    dischargePreload_eq]

theorem onCapture_period (s : State) (icr1 : Nat) :
    (onCapture s icr1).m_period = ((s.m_highCount <<< 16) % 2 ^ 32) ||| (icr1 % 2 ^ 16) := rfl

theorem onCapture_value (s : State) (icr1 : Nat) :
    (onCapture s icr1).m_value = calculateValue (onCapture s icr1).m_period := rfl

theorem onCapture_timerMode (s : State) (icr1 : Nat) :
    (onCapture s icr1).m_timerMode = TimerMode.DISCHARGING := rfl

theorem onCapture_trace (s : State) (icr1 : Nat) :
    (onCapture s icr1).trace = s.trace ++ [HwCall.stopTimer, HwCall.discharge,
      HwCall.setTimerCounter 65376, HwCall.disableCapture, HwCall.startTimer] := by
  rw [onCapture, startDischargeCycle_trace]
  simp [setValue, stopTimer]

theorem onCapture_highCount (s : State) (icr1 : Nat) :
    (onCapture s icr1).m_highCount = 0 := by
  simp [onCapture, startDischargeCycle, startTimer, disableCapture, setTimerCounter,
    dischargePreload_eq]

theorem onOverflow_discharging (s : State) (hm : s.m_timerMode = TimerMode.DISCHARGING) :
    onOverflow s = { stopTimer s with m_timerMode := TimerMode.IDLE } := by
  simp [onOverflow, hm]

/-- Below the timeout threshold the overflow handler counts the overflow and
lowers the stored value to the provisional estimate. -/
theorem onOverflow_counting (s : State) (hm : s.m_timerMode ≠ TimerMode.DISCHARGING)
    (hh : s.m_highCount < 4882) :
    onOverflow s = { s with
      m_highCount := s.m_highCount + 1,
      m_value := min s.m_value (calculateValue ((s.m_highCount + 1) <<< 16)) } := by
  have h1 : (s.m_highCount + 1) % 2 ^ 16 = s.m_highCount + 1 :=
    Nat.mod_eq_of_lt (by norm_num; omega)
  have h2 : timeoutReached (s.m_highCount + 1) = false :=
    (timeoutReached_eq_false_iff _).2 (by omega)
  have h3 : ((s.m_highCount + 1) <<< 16) % 2 ^ 32 = (s.m_highCount + 1) <<< 16 := by
    rw [shiftLeft16_mod _ (by norm_num; omega), shiftLeft16_eq]
  simp only [onOverflow, if_neg hm, h1, h2, h3, Bool.false_eq_true, if_false]
  by_cases hv : s.m_value > calculateValue ((s.m_highCount + 1) <<< 16)
  · rw [if_pos hv, Nat.min_eq_right (Nat.le_of_lt hv)]
  · rw [if_neg hv, Nat.min_eq_left (Nat.le_of_not_gt hv)]

/-- When the incremented high word passes the threshold the overflow handler
ends the charge cycle through `setValue(0)` and `startDischargeCycle()`. -/
theorem onOverflow_timeout (s : State) (hm : s.m_timerMode ≠ TimerMode.DISCHARGING)
    (hh : timeoutReached ((s.m_highCount + 1) % 2 ^ 16) = true) :
    onOverflow s = startDischargeCycle (setValue (stopTimer
      { s with m_highCount := (s.m_highCount + 1) % 2 ^ 16 }) 0) := by
  simp only [onOverflow, if_neg hm, hh, if_true]

theorem setValue_zero_after_timeout (s : State) (hlo : 4882 < s.m_highCount)
    (hhi : s.m_highCount < 2 ^ 16) :
    (setValue s 0).m_period = s.m_highCount * 65536 ∧ (setValue s 0).m_value = 0 := by
  have hp : ((s.m_highCount <<< 16) % 2 ^ 32) ||| (0 % 2 ^ 16) = s.m_highCount * 65536 := by
    rw [period_eq _ _ hhi (by norm_num), Nat.add_zero]
  refine ⟨by simp only [setValue, hp], ?_⟩
  simp only [setValue, hp]
  exact calculateValue_eq_zero _ (by omega)

theorem onOverflow_timeout_value (s : State) (hm : s.m_timerMode ≠ TimerMode.DISCHARGING)
    (hh : timeoutReached ((s.m_highCount + 1) % 2 ^ 16) = true) :
    (onOverflow s).m_value = 0 ∧ (onOverflow s).m_timerMode = TimerMode.DISCHARGING ∧
    (onOverflow s).m_period = (s.m_highCount + 1) % 2 ^ 16 * 65536 := by
  rw [onOverflow_timeout s hm hh]
  have hlt : (s.m_highCount + 1) % 2 ^ 16 < 2 ^ 16 := Nat.mod_lt _ (by norm_num)
  have key := setValue_zero_after_timeout
    (stopTimer { s with m_highCount := (s.m_highCount + 1) % 2 ^ 16 })
    ((timeoutReached_iff _).1 hh) hlt
  exact ⟨by rw [startDischargeCycle_value]; exact key.2, startDischargeCycle_timerMode _,
    by rw [startDischargeCycle_period]; exact key.1⟩

/-- While the high word stays at or below the threshold, `k` overflows of a
charge cycle leave the mode and add `k` to the high word. -/
theorem overflows_counting (k : Nat) (s : State) (hm : s.m_timerMode = TimerMode.CHARGING)
    (hh : s.m_highCount + k ≤ 4882) :
    (overflows k s).m_timerMode = TimerMode.CHARGING ∧
    (overflows k s).m_highCount = s.m_highCount + k ∧
    (overflows k s).m_period = s.m_period ∧
    (overflows k s).m_value ≤ s.m_value := by
  induction k generalizing s with
  | zero => exact ⟨hm, rfl, rfl, Nat.le_refl _⟩
  | succ k ih =>
    have hne : s.m_timerMode ≠ TimerMode.DISCHARGING := by rw [hm]; decide
    have hstep := onOverflow_counting s hne (by omega)
    have hm1 : (onOverflow s).m_timerMode = TimerMode.CHARGING := by rw [hstep]; exact hm
    have hh1 : (onOverflow s).m_highCount = s.m_highCount + 1 := by rw [hstep]
    have hp1 : (onOverflow s).m_period = s.m_period := by rw [hstep]
    have hv1 : (onOverflow s).m_value ≤ s.m_value := by
      rw [hstep]; exact Nat.min_le_left _ _
    obtain ⟨a, b, c, d⟩ := ih (onOverflow s) hm1 (by omega)
    refine ⟨a, ?_, ?_, Nat.le_trans d hv1⟩
    · show (overflows k (onOverflow s)).m_highCount = _
      rw [b, hh1]; omega
    · show (overflows k (onOverflow s)).m_period = _
      rw [c, hp1]

theorem overflows_succ_right (k : Nat) (s : State) :
    overflows (k + 1) s = onOverflow (overflows k s) := by
  induction k generalizing s with
  | zero => rfl
  | succ k ih =>
    show overflows (k + 1) (onOverflow s) = onOverflow (overflows k (onOverflow s))
    exact ih (onOverflow s)

/-! ## Claims -/

/-- C1: for every state with a 16-bit high word `H` and every 16-bit captured
register value `L`, `onCapture` sets `Period = (H << 16) | L = H * 65536 + L`
and `Value = calculateValue Period`, and leaves the mode `DISCHARGING`. -/
theorem onCapture_sets_period_and_value (s : State) (L : Nat)
    (hH : s.m_highCount < 2 ^ 16) (hL : L < 2 ^ 16) :
    (onCapture s L).m_period = (s.m_highCount <<< 16) ||| L ∧
    (onCapture s L).m_period = s.m_highCount * 65536 + L ∧
    (onCapture s L).m_value = calculateValue ((s.m_highCount <<< 16) ||| L) ∧
    (onCapture s L).m_timerMode = TimerMode.DISCHARGING := by
  have hp : (onCapture s L).m_period = s.m_highCount * 65536 + L := by
    rw [onCapture_period, period_eq _ _ hH hL]
  have hor := shiftLeft16_or s.m_highCount L hL
  refine ⟨by rw [hp, hor], hp, ?_, onCapture_timerMode s L⟩
  rw [onCapture_value, hp, hor]

/-- Witness of C1: high word 3 and captured low word 32192 give the period
`3 * 65536 + 32192 = 228800` and the value 1000. -/
theorem onCapture_sets_period_and_value_witness :
    ((chargingAt 3 5000).m_highCount < 2 ^ 16 ∧ 32192 < 2 ^ 16) ∧
    (onCapture (chargingAt 3 5000) 32192).m_period = 3 <<< 16 ||| 32192 ∧
    (onCapture (chargingAt 3 5000) 32192).m_period = 3 * 65536 + 32192 ∧
    (onCapture (chargingAt 3 5000) 32192).m_value = calculateValue (3 <<< 16 ||| 32192) ∧
    (onCapture (chargingAt 3 5000) 32192).m_timerMode = TimerMode.DISCHARGING :=
  ⟨⟨by decide, by decide⟩,
    onCapture_sets_period_and_value (chargingAt 3 5000) 32192 (by decide) (by decide)⟩

/-- C2: `calculateValue` equals its reference definition at every period: the
maximum sentinel `0xFFFFFFFF` at zero and `floor (K / p)` otherwise, where the
numerator `K` of the source, `1.3 * 1.1 * 16,000,000 * 10`, is 228,800,000
(in 32-bit and in 64-bit floating point alike, and in exact arithmetic);
in particular `calculateValue 228800 = 1000`, `calculateValue 1 = 228800000`
and `calculateValue 0 = 0xFFFFFFFF`. -/
theorem calculateValue_eq_ref :
    (∀ p : Nat, calculateValue p = calculateValueRef p) ∧
    numerator = 228800000 ∧
    numeratorAt 53 = 228800000 ∧
    13 * 11 * F_CPU * 10 / (10 * 10) = 228800000 ∧
    calculateValue 228800 = 1000 ∧
    calculateValue 1 = 228800000 ∧
    calculateValue 0 = 0xFFFFFFFF := by
  refine ⟨?_, numerator_eq, numeratorAt_binary64, by decide, ?_, ?_, calculateValue_zero⟩
  · intro p
    simp only [calculateValue, calculateValueRef, numerator_eq]
  · rw [calculateValue_pos _ (by norm_num)]
  · rw [calculateValue_pos _ (by norm_num)]

/-- C3: `calculateValue` is monotonically non-increasing: for periods
`p1 < p2`, both nonzero, `calculateValue p1 ≥ calculateValue p2`. -/
theorem calculateValue_monotone (p1 p2 : Nat) (h1 : p1 ≠ 0) (h2 : p2 ≠ 0) (hlt : p1 < p2) :
    calculateValue p1 ≥ calculateValue p2 := by
  have hp1 : 0 < p1 := Nat.pos_of_ne_zero h1
  have hp2 : 0 < p2 := Nat.pos_of_ne_zero h2
  rw [calculateValue_pos p1 hp1, calculateValue_pos p2 hp2]
  exact Nat.div_le_div_left (Nat.le_of_lt hlt) hp1

/-- Witness of C3: the periods 228800 and 457600. -/
theorem calculateValue_monotone_witness :
    (228800 ≠ 0 ∧ 457600 ≠ 0 ∧ 228800 < 457600) ∧
    calculateValue 228800 ≥ calculateValue 457600 :=
  ⟨⟨by decide, by decide, by decide⟩,
    calculateValue_monotone 228800 457600 (by decide) (by decide) (by decide)⟩

/-- C4: the timeout test of `onOverflow` holds exactly when the incremented
high word exceeds `floor (16,000,000 * 20 / 65536) = 4882`; from a Charging
state with high word `H ≤ 4882`, and with no capture, the first `4882 - H`
overflows leave the mode Charging, and overflow number `4883 - H` sets
`Value` to 0 and the mode to Discharging. -/
theorem timeout_after_threshold (s : State) (hm : s.m_timerMode = TimerMode.CHARGING)
    (hh : s.m_highCount ≤ 4882) :
    (∀ h : Nat, timeoutReached h = true ↔ F_CPU * TIMEOUT / 65536 < h) ∧
    F_CPU * TIMEOUT / 65536 = 4882 ∧
    (∀ k : Nat, k ≤ 4882 - s.m_highCount →
      (overflows k s).m_timerMode = TimerMode.CHARGING) ∧
    (overflows (4883 - s.m_highCount) s).m_value = 0 ∧
    (overflows (4883 - s.m_highCount) s).m_timerMode = TimerMode.DISCHARGING := by
  have hthr : F_CPU * TIMEOUT / 65536 = 4882 := by decide
  refine ⟨?_, hthr, ?_, ?_⟩
  · intro h
    rw [hthr]
    exact timeoutReached_iff h
  · intro k hk
    exact (overflows_counting k s hm (by omega)).1
  · have hn : 4883 - s.m_highCount = (4882 - s.m_highCount) + 1 := by omega
    obtain ⟨a, b, _, _⟩ := overflows_counting (4882 - s.m_highCount) s hm (by omega)
    have hb : (overflows (4882 - s.m_highCount) s).m_highCount = 4882 := by omega
    have hne : (overflows (4882 - s.m_highCount) s).m_timerMode ≠ TimerMode.DISCHARGING := by
      rw [a]; decide
    have hto : timeoutReached
        (((overflows (4882 - s.m_highCount) s).m_highCount + 1) % 2 ^ 16) = true := by
      rw [hb]; decide
    have key := onOverflow_timeout_value _ hne hto
    rw [hn, overflows_succ_right]
    exact ⟨key.1, key.2.1⟩

/-- Witness of C4: from high word 4880 the first two overflows leave the mode
Charging and the third sets `Value` to 0 and the mode to Discharging. -/
theorem timeout_after_threshold_witness :
    ((chargingAt 4880 1000).m_timerMode = TimerMode.CHARGING ∧
      (chargingAt 4880 1000).m_highCount ≤ 4882) ∧
    (overflows 1 (chargingAt 4880 1000)).m_timerMode = TimerMode.CHARGING ∧
    (overflows 2 (chargingAt 4880 1000)).m_timerMode = TimerMode.CHARGING ∧
    (overflows 3 (chargingAt 4880 1000)).m_value = 0 ∧
    (overflows 3 (chargingAt 4880 1000)).m_timerMode = TimerMode.DISCHARGING :=
  have key := timeout_after_threshold (chargingAt 4880 1000) rfl (by decide)
  ⟨⟨rfl, by decide⟩, key.2.2.1 1 (by decide), key.2.2.1 2 (by decide), key.2.2.2⟩

/-- C5: in a state whose mode is Charging or Discharging, `update` changes no
field of the state and issues no hardware helper call; hence on every state
`update` applied twice equals `update` applied once. -/
theorem update_noop_unless_idle (s : State)
    (hm : s.m_timerMode = TimerMode.CHARGING ∨ s.m_timerMode = TimerMode.DISCHARGING) :
    update s = s ∧ issued s (update s) = [] ∧
    ∀ t : State, update (update t) = update t := by
  have hne : s.m_timerMode ≠ TimerMode.IDLE := by
    rcases hm with h | h <;> rw [h] <;> decide
  rw [update_not_idle s hne]
  refine ⟨rfl, issued_self s, ?_⟩
  intro t
  by_cases hi : t.m_timerMode = TimerMode.IDLE
  · rw [update_idle t hi]
    apply update_not_idle
    rw [startChargeCycle_timerMode]
    decide
  · rw [update_not_idle t hi, update_not_idle t hi]

/-- Witness of C5: a Charging state with high word 7. -/
theorem update_noop_unless_idle_witness :
    ((chargingAt 7 1000).m_timerMode = TimerMode.CHARGING ∨
      (chargingAt 7 1000).m_timerMode = TimerMode.DISCHARGING) ∧
    update (chargingAt 7 1000) = chargingAt 7 1000 ∧
    issued (chargingAt 7 1000) (update (chargingAt 7 1000)) = [] ∧
    ∀ t : State, update (update t) = update t :=
  ⟨Or.inl rfl, update_noop_unless_idle (chargingAt 7 1000) (Or.inl rfl)⟩

/-- C6: from every Idle state `update` yields mode Charging with the simulated
counter reset (hardware register 0, high word 0), the capture trigger enabled,
the pin in charge mode and the timer running with prescaler 1 (clock-select
bits `001`), and leaves `Value` and `Period` unchanged. -/
theorem update_starts_charge_cycle (s : State) (hm : s.m_timerMode = TimerMode.IDLE) :
    (update s).m_timerMode = TimerMode.CHARGING ∧
    (update s).TCNT1 = 0 ∧
    (update s).m_highCount = 0 ∧
    captureEnabled (update s) = true ∧
    pinDischarging (update s) = false ∧
    timerRunning (update s) = true ∧
    clockSelect (update s) = 1 ∧
    (update s).m_value = s.m_value ∧
    (update s).m_period = s.m_period := by
  rw [update_idle s hm]
  have hcs : clockSelect (startChargeCycle s) = 1 := stop_start_clockSelect s.TCCR1B
  refine ⟨rfl, rfl, rfl, ?_, ?_, ?_, hcs, rfl, rfl⟩
  · show ((s.ACSR ||| _BV ACIC) % 256).testBit ACIC = true
    rw [testBit_set]
    simp [ACIC]
  · show (s.DDRE &&& not8 (_BV DDE6)).testBit DDE6 = false
    rw [testBit_clear]
    simp
  · unfold timerRunning
    rw [hcs]
    decide

/-- Witness of C6: the sample idle state. -/
theorem update_starts_charge_cycle_witness :
    idleSample.m_timerMode = TimerMode.IDLE ∧
    (update idleSample).m_timerMode = TimerMode.CHARGING ∧
    (update idleSample).TCNT1 = 0 ∧
    (update idleSample).m_highCount = 0 ∧
    captureEnabled (update idleSample) = true ∧
    pinDischarging (update idleSample) = false ∧
    timerRunning (update idleSample) = true ∧
    clockSelect (update idleSample) = 1 ∧
    (update idleSample).m_value = idleSample.m_value ∧
    (update idleSample).m_period = idleSample.m_period :=
  ⟨rfl, update_starts_charge_cycle idleSample rfl⟩

/-- C7: from any Idle state, `update` moves the mode to Charging and issues
exactly one `startTimer` call; a following capture moves the mode to
Discharging and issues exactly one `stopTimer` call and, after it, exactly one
`setTimerCounter` call; a following overflow moves the mode to Idle. -/
theorem full_cycle_scenario (s : State) (icr1 : Nat) (hm : s.m_timerMode = TimerMode.IDLE) :
    (update s).m_timerMode = TimerMode.CHARGING ∧
    issued s (update s) = [HwCall.stopTimer, HwCall.setTimerCounter 0,
      HwCall.enableCapture, HwCall.charge, HwCall.startTimer] ∧
    (issued s (update s)).count HwCall.startTimer = 1 ∧
    (onCapture (update s) icr1).m_timerMode = TimerMode.DISCHARGING ∧
    issued (update s) (onCapture (update s) icr1) = [HwCall.stopTimer, HwCall.discharge,
      HwCall.setTimerCounter 65376, HwCall.disableCapture, HwCall.startTimer] ∧
    (issued (update s) (onCapture (update s) icr1)).count HwCall.stopTimer = 1 ∧
    (issued (update s) (onCapture (update s) icr1)).countP isSetTimerCounter = 1 ∧
    (onOverflow (onCapture (update s) icr1)).m_timerMode = TimerMode.IDLE := by
  have h1 := issued_append s (update s) _ (by rw [update_idle s hm, startChargeCycle_trace])
  have h2 := issued_append (update s) (onCapture (update s) icr1) _
    (onCapture_trace (update s) icr1)
  refine ⟨by rw [update_idle s hm, startChargeCycle_timerMode], h1, ?_,
    onCapture_timerMode _ _, h2, ?_, ?_, ?_⟩
  · rw [h1]; decide
  · rw [h2]; decide
  · rw [h2]; decide
  · rw [onOverflow_discharging _ (onCapture_timerMode _ _)]

/-- Witness of C7: the sample idle state and the captured low word 32192. -/
theorem full_cycle_scenario_witness :
    idleSample.m_timerMode = TimerMode.IDLE ∧
    (update idleSample).m_timerMode = TimerMode.CHARGING ∧
    issued idleSample (update idleSample) = [HwCall.stopTimer, HwCall.setTimerCounter 0,
      HwCall.enableCapture, HwCall.charge, HwCall.startTimer] ∧
    (issued idleSample (update idleSample)).count HwCall.startTimer = 1 ∧
    (onCapture (update idleSample) 32192).m_timerMode = TimerMode.DISCHARGING ∧
    issued (update idleSample) (onCapture (update idleSample) 32192) =
      [HwCall.stopTimer, HwCall.discharge, HwCall.setTimerCounter 65376,
        HwCall.disableCapture, HwCall.startTimer] ∧
    (issued (update idleSample) (onCapture (update idleSample) 32192)).count
      HwCall.stopTimer = 1 ∧
    (issued (update idleSample) (onCapture (update idleSample) 32192)).countP
      isSetTimerCounter = 1 ∧
    (onOverflow (onCapture (update idleSample) 32192)).m_timerMode = TimerMode.IDLE :=
  ⟨rfl, full_cycle_scenario idleSample 32192 rfl⟩

/-- C8: from a Charging state with high word `H < 4882` and stored value `V`,
one overflow sets the high word to `H + 1` and `Value` to
`min V (calculateValue ((H + 1) << 16))`, and leaves the mode Charging and
`Period` unchanged. -/
theorem overflow_provisional_estimate (s : State)
    (hm : s.m_timerMode = TimerMode.CHARGING) (hh : s.m_highCount < 4882) :
    (onOverflow s).m_highCount = s.m_highCount + 1 ∧
    (onOverflow s).m_value = min s.m_value (calculateValue ((s.m_highCount + 1) <<< 16)) ∧
    (onOverflow s).m_timerMode = TimerMode.CHARGING ∧
    (onOverflow s).m_period = s.m_period := by
  have hne : s.m_timerMode ≠ TimerMode.DISCHARGING := by rw [hm]; decide
  rw [onOverflow_counting s hne hh]
  exact ⟨rfl, rfl, hm, rfl⟩

/-- Witness of C8: high word 3 and stored value 5000; the estimate from the
high word 4 alone is `228800000 / 262144 = 872`. -/
theorem overflow_provisional_estimate_witness :
    ((chargingAt 3 5000).m_timerMode = TimerMode.CHARGING ∧
      (chargingAt 3 5000).m_highCount < 4882) ∧
    (onOverflow (chargingAt 3 5000)).m_highCount = 3 + 1 ∧
    (onOverflow (chargingAt 3 5000)).m_value = min 5000 (calculateValue ((3 + 1) <<< 16)) ∧
    (onOverflow (chargingAt 3 5000)).m_timerMode = TimerMode.CHARGING ∧
    (onOverflow (chargingAt 3 5000)).m_period = (chargingAt 3 5000).m_period :=
  ⟨⟨rfl, by decide⟩, overflow_provisional_estimate (chargingAt 3 5000) rfl (by decide)⟩

/-- C9: the overflow handler never raises the estimate: in every state, of any
mode, high word and stored value, `Value` after `onOverflow` is at most
`Value` before it. -/
theorem onOverflow_never_raises (s : State) : (onOverflow s).m_value ≤ s.m_value := by
  by_cases hm : s.m_timerMode = TimerMode.DISCHARGING
  · rw [onOverflow_discharging s hm]
    exact Nat.le_refl _
  · cases hto : timeoutReached ((s.m_highCount + 1) % 2 ^ 16) with
    | true =>
      rw [(onOverflow_timeout_value s hm hto).1]
      exact Nat.zero_le _
    | false =>
      simp only [onOverflow, if_neg hm, hto, Bool.false_eq_true, if_false]
      generalize calculateValue (((s.m_highCount + 1) % 2 ^ 16) <<< 16 % 2 ^ 32) = m
      by_cases hv : s.m_value > m
      · rw [if_pos hv]
        exact Nat.le_of_lt hv
      · rw [if_neg hv]

/-- C10: the provisional value bounds the true value from above: for 16-bit
words `H` and `l`, `calculateValue ((H << 16) | l) ≤ calculateValue (H << 16)`;
so in a charge cycle a capture that follows the overflow which raised the high
word to `H`, at once or after `k` further overflows, yields a `Value` no
greater than the provisional estimate `calculateValue (H << 16)` of that
overflow. -/
theorem provisional_is_upper_bound (s : State) (k L : Nat)
    (hm : s.m_timerMode = TimerMode.CHARGING) (hh : s.m_highCount + 1 + k ≤ 4882)
    (hL : L < 2 ^ 16) :
    (∀ H l : Nat, H < 2 ^ 16 → l < 2 ^ 16 →
      calculateValue ((H <<< 16) ||| l) ≤ calculateValue (H <<< 16)) ∧
    (onOverflow s).m_highCount = s.m_highCount + 1 ∧
    (onCapture (overflows k (onOverflow s)) L).m_value ≤
      calculateValue ((onOverflow s).m_highCount <<< 16) := by
  have hne : s.m_timerMode ≠ TimerMode.DISCHARGING := by rw [hm]; decide
  have hstep := onOverflow_counting s hne (by omega)
  have hh1 : (onOverflow s).m_highCount = s.m_highCount + 1 := by rw [hstep]
  have hm1 : (onOverflow s).m_timerMode = TimerMode.CHARGING := by rw [hstep]; exact hm
  refine ⟨?_, hh1, ?_⟩
  · intro H l _ hl
    rw [shiftLeft16_or H l hl, shiftLeft16_eq]
    exact calculateValue_anti _ _ (Nat.le_add_right _ _)
  · obtain ⟨_, b, _, _⟩ := overflows_counting k (onOverflow s) hm1 (by omega)
    have hlt : (overflows k (onOverflow s)).m_highCount < 2 ^ 16 := by
      rw [b, hh1]; norm_num; omega
    rw [onCapture_value, onCapture_period, period_eq _ _ hlt hL, b, shiftLeft16_eq]
    apply calculateValue_anti
    have : (onOverflow s).m_highCount * 65536 ≤ ((onOverflow s).m_highCount + k) * 65536 :=
      Nat.mul_le_mul_right _ (Nat.le_add_right _ _)
    omega

/-- Witness of C10: overflow from high word 3, two further overflows, then a
capture with low word 32192. -/
theorem provisional_is_upper_bound_witness :
    ((chargingAt 3 5000).m_timerMode = TimerMode.CHARGING ∧
      (chargingAt 3 5000).m_highCount + 1 + 2 ≤ 4882 ∧ 32192 < 2 ^ 16) ∧
    (∀ H l : Nat, H < 2 ^ 16 → l < 2 ^ 16 →
      calculateValue ((H <<< 16) ||| l) ≤ calculateValue (H <<< 16)) ∧
    (onOverflow (chargingAt 3 5000)).m_highCount = (chargingAt 3 5000).m_highCount + 1 ∧
    (onCapture (overflows 2 (onOverflow (chargingAt 3 5000))) 32192).m_value ≤
      calculateValue ((onOverflow (chargingAt 3 5000)).m_highCount <<< 16) :=
  ⟨⟨rfl, by decide, by decide⟩,
    provisional_is_upper_bound (chargingAt 3 5000) 2 32192 rfl (by decide) (by decide)⟩

/-- C11: `Value = calculateValue Period` holds right after every event that
ends a charge cycle: after `onCapture` in any state, and after an `onOverflow`
that takes the timeout branch, where `Period` becomes the incremented high
word shifted left by 16. -/
theorem value_matches_period_at_cycle_end (s : State)
    (hm : s.m_timerMode ≠ TimerMode.DISCHARGING)
    (hto : timeoutReached ((s.m_highCount + 1) % 2 ^ 16) = true) :
    (∀ (t : State) (icr1 : Nat),
      (onCapture t icr1).m_value = calculateValue (onCapture t icr1).m_period) ∧
    (onOverflow s).m_period = ((s.m_highCount + 1) % 2 ^ 16) <<< 16 ∧
    (onOverflow s).m_value = calculateValue (onOverflow s).m_period := by
  refine ⟨fun t icr1 => onCapture_value t icr1, ?_, ?_⟩
  · rw [(onOverflow_timeout_value s hm hto).2.2, shiftLeft16_eq]
  · rw [onOverflow_timeout s hm hto]
    rfl

/-- Witness of C11: the overflow that raises the high word from 4882 to 4883
stores `Period = 4883 << 16` and `Value = calculateValue Period`. -/
theorem value_matches_period_at_cycle_end_witness :
    ((chargingAt 4882 1000).m_timerMode ≠ TimerMode.DISCHARGING ∧
      timeoutReached (((chargingAt 4882 1000).m_highCount + 1) % 2 ^ 16) = true) ∧
    (∀ (t : State) (icr1 : Nat),
      (onCapture t icr1).m_value = calculateValue (onCapture t icr1).m_period) ∧
    (onOverflow (chargingAt 4882 1000)).m_period =
      (((chargingAt 4882 1000).m_highCount + 1) % 2 ^ 16) <<< 16 ∧
    (onOverflow (chargingAt 4882 1000)).m_value =
      calculateValue (onOverflow (chargingAt 4882 1000)).m_period :=
  ⟨⟨by decide, by decide⟩,
    value_matches_period_at_cycle_end (chargingAt 4882 1000) (by decide) (by decide)⟩

/-- C12: in every Discharging state `onOverflow` stops the timer and sets the
mode to Idle, leaving `Value`, `Period`, the high word, the pin mode and the
capture-trigger flag unchanged; it issues `stopTimer` only and does not start
a charge cycle. -/
theorem onOverflow_ends_discharge (s : State)
    (hm : s.m_timerMode = TimerMode.DISCHARGING) :
    timerRunning (onOverflow s) = false ∧
    (onOverflow s).m_timerMode = TimerMode.IDLE ∧
    (onOverflow s).m_value = s.m_value ∧
    (onOverflow s).m_period = s.m_period ∧
    (onOverflow s).m_highCount = s.m_highCount ∧
    (onOverflow s).DDRE = s.DDRE ∧
    (onOverflow s).ACSR = s.ACSR ∧
    pinDischarging (onOverflow s) = pinDischarging s ∧
    captureEnabled (onOverflow s) = captureEnabled s ∧
    issued s (onOverflow s) = [HwCall.stopTimer] ∧
    (onOverflow s).m_timerMode ≠ TimerMode.CHARGING := by
  rw [onOverflow_discharging s hm]
  have hne : TimerMode.IDLE ≠ TimerMode.CHARGING := by decide
  refine ⟨?_, rfl, rfl, rfl, rfl, rfl, rfl, rfl, rfl, issued_append _ _ _ rfl, hne⟩
  have hcs : clockSelect { stopTimer s with m_timerMode := TimerMode.IDLE } = 0 :=
    and_not8_seven s.TCCR1B
  unfold timerRunning
  rw [hcs]
  decide

/-- Witness of C12: the sample discharging state. -/
theorem onOverflow_ends_discharge_witness :
    dischargingSample.m_timerMode = TimerMode.DISCHARGING ∧
    timerRunning (onOverflow dischargingSample) = false ∧
    (onOverflow dischargingSample).m_timerMode = TimerMode.IDLE ∧
    (onOverflow dischargingSample).m_value = dischargingSample.m_value ∧
    (onOverflow dischargingSample).m_period = dischargingSample.m_period ∧
    (onOverflow dischargingSample).m_highCount = dischargingSample.m_highCount ∧
    (onOverflow dischargingSample).DDRE = dischargingSample.DDRE ∧
    (onOverflow dischargingSample).ACSR = dischargingSample.ACSR ∧
    pinDischarging (onOverflow dischargingSample) = pinDischarging dischargingSample ∧
    captureEnabled (onOverflow dischargingSample) = captureEnabled dischargingSample ∧
    issued dischargingSample (onOverflow dischargingSample) = [HwCall.stopTimer] ∧
    (onOverflow dischargingSample).m_timerMode ≠ TimerMode.CHARGING :=
  ⟨rfl, onOverflow_ends_discharge dischargingSample rfl⟩

/-! ## Hardware state on entry to a discharge cycle -/

/-- Starting a stopped timer selects prescaler 1. -/
theorem start_clockSelect_of_stopped (r : Nat) (h : r &&& 7 = 0) :
    ((r ||| _BV CS10) % 256) &&& 7 = 1 := by
  apply Nat.eq_of_testBit_eq
  intro i
  have h1 : Nat.testBit 1 i = decide (0 = i) := testBit_BV 0 i
  have hr := congrArg (fun n => Nat.testBit n i) h
  simp only [Nat.testBit_and, testBit_seven, Nat.zero_testBit] at hr
  rw [Nat.testBit_and, testBit_set, testBit_seven, h1]
  by_cases h3 : i < 3
  · have hri : r.testBit i = false := by simpa [h3] using hr
    have h8 : i < 8 := by omega
    simp [hri, h3, h8, CS10]
  · have h0 : ¬ (0 = i) := by omega
    simp [h3, h0, CS10]

theorem startDischargeCycle_TCCR1B (s : State) :
    (startDischargeCycle s).TCCR1B = (s.TCCR1B ||| _BV CS10) % 256 := rfl

theorem startDischargeCycle_TCNT1 (s : State) : (startDischargeCycle s).TCNT1 = 65376 := by
  show (dischargePreload % 2 ^ 32) &&& 0xffff = 65376
  decide

theorem startDischargeCycle_highCount (s : State) :
    (startDischargeCycle s).m_highCount = 0 := by
  show ((dischargePreload % 2 ^ 32) >>> 16) % 2 ^ 16 = 0
  decide

theorem startDischargeCycle_captureEnabled (s : State) :
    captureEnabled (startDischargeCycle s) = false := by
  show (s.ACSR &&& not8 (_BV ACIC)).testBit ACIC = false
  rw [testBit_clear]
  simp

theorem startDischargeCycle_pinDischarging (s : State) :
    pinDischarging (startDischargeCycle s) = true := by
  show ((s.DDRE ||| _BV DDE6) % 256).testBit DDE6 = true
  rw [testBit_set]
  simp [DDE6]

theorem startDischargeCycle_timerRunning (s : State) :
    timerRunning (startDischargeCycle s) = true := by
  have h : clockSelect (startDischargeCycle s) ≠ 0 := start_clockSelect_ne_zero s.TCCR1B
  unfold timerRunning
  exact decide_eq_true h

theorem startDischargeCycle_clockSelect (s : State) (h : clockSelect s = 0) :
    clockSelect (startDischargeCycle s) = 1 :=
  start_clockSelect_of_stopped s.TCCR1B h

theorem setup_eq (s : State) :
    setup s = startDischargeCycle { s with
      DIDR1 := (s.DIDR1 ||| _BV AIN0D) % 256,
      TCCR1A := 0,
      TCCR1B := (0 ||| _BV ICES1) % 256,
      TIMSK1 := (s.TIMSK1 ||| (_BV ICIE1 ||| _BV TOIE1)) % 256 } := rfl

/-- C13: after `setup` from any prior state the mode is Discharging (not
Idle), the pin is in discharge mode, the capture trigger is disabled,
capture on the rising edge and both interrupt sources are enabled, the timer
is running (prescaler 1) and the high word is 0; one subsequent overflow then
brings the mode to Idle. -/
theorem setup_starts_discharge_cycle (s : State) :
    (setup s).m_timerMode = TimerMode.DISCHARGING ∧
    (setup s).m_timerMode ≠ TimerMode.IDLE ∧
    pinDischarging (setup s) = true ∧
    captureEnabled (setup s) = false ∧
    (setup s).TCCR1B.testBit ICES1 = true ∧
    (setup s).TIMSK1.testBit ICIE1 = true ∧
    (setup s).TIMSK1.testBit TOIE1 = true ∧
    timerRunning (setup s) = true ∧
    clockSelect (setup s) = 1 ∧
    (setup s).m_highCount = 0 ∧
    (onOverflow (setup s)).m_timerMode = TimerMode.IDLE := by
  have hmode : (setup s).m_timerMode = TimerMode.DISCHARGING := rfl
  have hne : TimerMode.DISCHARGING ≠ TimerMode.IDLE := by decide
  have htccr : (setup s).TCCR1B = 65 := by
    show ((0 ||| _BV ICES1) % 256 ||| _BV CS10) % 256 = 65
    decide
  have hcs : clockSelect (setup s) = 1 := by
    unfold clockSelect
    rw [htccr]
    decide
  refine ⟨hmode, by rw [hmode]; exact hne, ?_, ?_, ?_, ?_, ?_, ?_, hcs, ?_, ?_⟩
  · rw [setup_eq]; exact startDischargeCycle_pinDischarging _
  · rw [setup_eq]; exact startDischargeCycle_captureEnabled _
  · rw [htccr]; decide
  · show ((s.TIMSK1 ||| (_BV ICIE1 ||| _BV TOIE1)) % 256).testBit ICIE1 = true
    rw [testBit_mod256, Nat.testBit_or, Nat.testBit_or, testBit_BV, testBit_BV]
    simp [ICIE1]
  · show ((s.TIMSK1 ||| (_BV ICIE1 ||| _BV TOIE1)) % 256).testBit TOIE1 = true
    rw [testBit_mod256, Nat.testBit_or, Nat.testBit_or, testBit_BV, testBit_BV]
    simp [TOIE1]
  · rw [setup_eq]; exact startDischargeCycle_timerRunning _
  · rw [setup_eq]; exact startDischargeCycle_highCount _
  · rw [onOverflow_discharging _ hmode]

/-- C17: `startDischargeCycle` from any state programs the 16-bit hardware
counter with `65536 - 160 = 65376`, the negative of the discharge duration of
`10 us * 16 MHz = 160` cycles, and resets the high word to 0, so that the
counter reaches 65536 and wraps after exactly 160 ticks; it sets the mode to
Discharging, the pin to discharge mode, the capture trigger disabled and the
timer running. -/
theorem startDischargeCycle_programs_counter (s : State) :
    DISCHARGE_TIME * F_CPU / 1000000 = 160 ∧
    dischargePreload = 65536 - 160 ∧
    (startDischargeCycle s).TCNT1 = 65376 ∧
    (startDischargeCycle s).m_highCount = 0 ∧
    (startDischargeCycle s).TCNT1 + 160 = 2 ^ 16 ∧
    (∀ k : Nat, k < 160 → (startDischargeCycle s).TCNT1 + k < 2 ^ 16) ∧
    (startDischargeCycle s).m_timerMode = TimerMode.DISCHARGING ∧
    pinDischarging (startDischargeCycle s) = true ∧
    captureEnabled (startDischargeCycle s) = false ∧
    timerRunning (startDischargeCycle s) = true ∧
    issued s (startDischargeCycle s) = [HwCall.discharge, HwCall.setTimerCounter 65376,
      HwCall.disableCapture, HwCall.startTimer] := by
  have ht := startDischargeCycle_TCNT1 s
  refine ⟨by decide, by decide, ht, startDischargeCycle_highCount s, by rw [ht]; norm_num,
    ?_, rfl, startDischargeCycle_pinDischarging s, startDischargeCycle_captureEnabled s,
    startDischargeCycle_timerRunning s,
    issued_append _ _ _ (startDischargeCycle_trace s)⟩
  intro k hk
  rw [ht]
  norm_num
  omega

/-! ## Runs of events -/

theorem run_cons (s : State) (e : Event) (es : List Event) :
    run s (e :: es) = run (step s e) es := rfl

/-- A property kept by every event holds after every run that starts in it. -/
theorem run_preserves (P : State → Prop) (hstep : ∀ s e, P s → P (step s e))
    (es : List Event) : ∀ s, P s → P (run s es) := by
  induction es with
  | nil => intro s hs; exact hs
  | cons e es ih =>
    intro s hs
    rw [run_cons]
    exact ih (step s e) (hstep s e hs)

/-- The branch of `onOverflow` below the threshold changes only the high word
and, downwards, the stored value. -/
theorem onOverflow_provisional_frame (s : State)
    (hm : s.m_timerMode ≠ TimerMode.DISCHARGING)
    (hto : timeoutReached ((s.m_highCount + 1) % 2 ^ 16) = false) :
    (onOverflow s).m_timerMode = s.m_timerMode ∧
    (onOverflow s).m_highCount = (s.m_highCount + 1) % 2 ^ 16 ∧
    (onOverflow s).m_period = s.m_period ∧
    (onOverflow s).m_value ≤ s.m_value ∧
    (onOverflow s).TCCR1B = s.TCCR1B ∧
    (onOverflow s).ACSR = s.ACSR ∧
    (onOverflow s).DDRE = s.DDRE := by
  simp only [onOverflow, if_neg hm, hto, Bool.false_eq_true, if_false]
  generalize calculateValue (((s.m_highCount + 1) % 2 ^ 16) <<< 16 % 2 ^ 32) = m
  by_cases hv : s.m_value > m
  · rw [if_pos hv]
    exact ⟨rfl, rfl, rfl, Nat.le_of_lt hv, rfl, rfl, rfl⟩
  · rw [if_neg hv]
    exact ⟨rfl, rfl, rfl, Nat.le_refl _, rfl, rfl, rfl⟩

theorem onOverflow_timeout_highCount (s : State)
    (hm : s.m_timerMode ≠ TimerMode.DISCHARGING)
    (hto : timeoutReached ((s.m_highCount + 1) % 2 ^ 16) = true) :
    (onOverflow s).m_highCount = 0 := by
  rw [onOverflow_timeout s hm hto]
  exact startDischargeCycle_highCount _

/-- From a charge cycle with high word `H ≤ 4882`, overflow number `4883 - H`
is the timeout. -/
theorem overflows_reach_timeout (s : State) (hm : s.m_timerMode = TimerMode.CHARGING)
    (hh : s.m_highCount ≤ 4882) :
    (overflows (4883 - s.m_highCount) s).m_timerMode = TimerMode.DISCHARGING := by
  have hn : 4883 - s.m_highCount = (4882 - s.m_highCount) + 1 := by omega
  obtain ⟨a, b, _, _⟩ := overflows_counting (4882 - s.m_highCount) s hm (by omega)
  have hb : (overflows (4882 - s.m_highCount) s).m_highCount = 4882 := by omega
  have hne : (overflows (4882 - s.m_highCount) s).m_timerMode ≠ TimerMode.DISCHARGING := by
    rw [a]; decide
  have hto : timeoutReached
      (((overflows (4882 - s.m_highCount) s).m_highCount + 1) % 2 ^ 16) = true := by
    rw [hb]; decide
  rw [hn, overflows_succ_right]
  exact (onOverflow_timeout_value _ hne hto).2.1

theorem update_timerMode_of_idle (s : State) (hm : s.m_timerMode = TimerMode.IDLE) :
    (update s).m_timerMode = TimerMode.CHARGING := by
  rw [update_idle s hm, startChargeCycle_timerMode]

/-- C14: from every state whose mode is Charging or Discharging and whose
high word is at most 4882, some number `n ≤ 4884` of consecutive overflows
brings the mode to Idle, and `update` then starts a new charge cycle. -/
theorem always_returns_to_idle (s : State)
    (hm : s.m_timerMode = TimerMode.CHARGING ∨ s.m_timerMode = TimerMode.DISCHARGING)
    (hh : s.m_highCount ≤ 4882) :
    ∃ n : Nat, n ≤ 4884 ∧ (overflows n s).m_timerMode = TimerMode.IDLE ∧
      (update (overflows n s)).m_timerMode = TimerMode.CHARGING := by
  rcases hm with hc | hd
  · have hidle : (overflows (4883 - s.m_highCount + 1) s).m_timerMode = TimerMode.IDLE := by
      rw [overflows_succ_right, onOverflow_discharging _ (overflows_reach_timeout s hc hh)]
    exact ⟨4883 - s.m_highCount + 1, by omega, hidle, update_timerMode_of_idle _ hidle⟩
  · have hidle : (overflows 1 s).m_timerMode = TimerMode.IDLE := by
      show (onOverflow s).m_timerMode = TimerMode.IDLE
      rw [onOverflow_discharging s hd]
    exact ⟨1, by omega, hidle, update_timerMode_of_idle _ hidle⟩

/-- Witness of C14: a Charging state with high word 4880 is Idle after four
overflows. -/
theorem always_returns_to_idle_witness :
    (((chargingAt 4880 1000).m_timerMode = TimerMode.CHARGING ∨
        (chargingAt 4880 1000).m_timerMode = TimerMode.DISCHARGING) ∧
      (chargingAt 4880 1000).m_highCount ≤ 4882) ∧
    ∃ n : Nat, n ≤ 4884 ∧ (overflows n (chargingAt 4880 1000)).m_timerMode = TimerMode.IDLE ∧
      (update (overflows n (chargingAt 4880 1000))).m_timerMode = TimerMode.CHARGING :=
  ⟨⟨Or.inl rfl, by decide⟩,
    always_returns_to_idle (chargingAt 4880 1000) (Or.inl rfl) (by decide)⟩

/-! ## Invariants of the reachable states -/

theorem startChargeCycle_highCount (s : State) : (startChargeCycle s).m_highCount = 0 := by
  show ((0 % 2 ^ 32) >>> 16) % 2 ^ 16 = 0
  decide

theorem highWordInv_of_zero (s : State) (h : s.m_highCount = 0) : HighWordInv s :=
  ⟨by rw [h]; exact Nat.zero_le _, fun _ => h⟩

theorem highWordInv_initial (tcnt1 tccr1a tccr1b timsk1 didr1 ddre acsr : Nat) :
    HighWordInv (initialState tcnt1 tccr1a tccr1b timsk1 didr1 ddre acsr) :=
  highWordInv_of_zero _ rfl

theorem highWordInv_onOverflow (s : State) (h : HighWordInv s) :
    HighWordInv (onOverflow s) := by
  by_cases hm : s.m_timerMode = TimerMode.DISCHARGING
  · apply highWordInv_of_zero
    rw [onOverflow_discharging s hm]
    exact h.2 hm
  · cases hto : timeoutReached ((s.m_highCount + 1) % 2 ^ 16) with
    | true => exact highWordInv_of_zero _ (onOverflow_timeout_highCount s hm hto)
    | false =>
      obtain ⟨hmode, hcount, _⟩ := onOverflow_provisional_frame s hm hto
      constructor
      · rw [hcount]
        exact (timeoutReached_eq_false_iff _).1 hto
      · intro hd
        rw [hmode] at hd
        exact absurd hd hm

theorem highWordInv_step (s : State) (e : Event) (h : HighWordInv s) :
    HighWordInv (step s e) := by
  cases e with
  | setup =>
    apply highWordInv_of_zero
    show (setup s).m_highCount = 0
    rw [setup_eq]
    exact startDischargeCycle_highCount _
  | update =>
    show HighWordInv (update s)
    by_cases hi : s.m_timerMode = TimerMode.IDLE
    · rw [update_idle s hi]
      exact highWordInv_of_zero _ (startChargeCycle_highCount s)
    · rw [update_not_idle s hi]
      exact h
  | overflow => exact highWordInv_onOverflow s h
  | capture icr1 => exact highWordInv_of_zero _ (onCapture_highCount s icr1)

theorem valueInv_onOverflow (s : State) (h : ValueInv s) : ValueInv (onOverflow s) := by
  unfold ValueInv at h ⊢
  by_cases hm : s.m_timerMode = TimerMode.DISCHARGING
  · rw [onOverflow_discharging s hm]
    exact h
  · cases hto : timeoutReached ((s.m_highCount + 1) % 2 ^ 16) with
    | true =>
      rw [(onOverflow_timeout_value s hm hto).1]
      exact Nat.zero_le _
    | false =>
      obtain ⟨_, _, hperiod, hvalue, _⟩ := onOverflow_provisional_frame s hm hto
      rw [hperiod]
      exact Nat.le_trans hvalue h

theorem valueInv_step (s : State) (e : Event) (h : ValueInv s) : ValueInv (step s e) := by
  cases e with
  | setup => exact h
  | update =>
    show ValueInv (update s)
    by_cases hi : s.m_timerMode = TimerMode.IDLE
    · rw [update_idle s hi]
      exact h
    · rw [update_not_idle s hi]
      exact h
  | overflow => exact valueInv_onOverflow s h
  | capture icr1 =>
    show (onCapture s icr1).m_value ≤ calculateValue (onCapture s icr1).m_period
    rw [onCapture_value]

/-- C18: in every state reachable from the initial state by any sequence of
`setup`, `update`, `onOverflow` and `onCapture`, the high word is at most 4882
and is 0 whenever the mode is Discharging; hence the 16-bit increment of
`onOverflow` does not wrap, and the period formed from the high word and any
16-bit low word fits in 32 bits without truncation. -/
theorem highCount_never_wraps (tcnt1 tccr1a tccr1b timsk1 didr1 ddre acsr : Nat)
    (es : List Event) (icr1 : Nat) :
    (reached tcnt1 tccr1a tccr1b timsk1 didr1 ddre acsr es).m_highCount ≤ 4882 ∧
    ((reached tcnt1 tccr1a tccr1b timsk1 didr1 ddre acsr es).m_timerMode =
        TimerMode.DISCHARGING →
      (reached tcnt1 tccr1a tccr1b timsk1 didr1 ddre acsr es).m_highCount = 0) ∧
    ((reached tcnt1 tccr1a tccr1b timsk1 didr1 ddre acsr es).m_highCount + 1) % 2 ^ 16 =
      (reached tcnt1 tccr1a tccr1b timsk1 didr1 ddre acsr es).m_highCount + 1 ∧
    ((reached tcnt1 tccr1a tccr1b timsk1 didr1 ddre acsr es).m_highCount <<< 16) % 2 ^ 32 =
      (reached tcnt1 tccr1a tccr1b timsk1 didr1 ddre acsr es).m_highCount <<< 16 ∧
    ((reached tcnt1 tccr1a tccr1b timsk1 didr1 ddre acsr es).m_highCount <<< 16) |||
      (icr1 % 2 ^ 16) < 2 ^ 32 := by
  have hinv : HighWordInv (reached tcnt1 tccr1a tccr1b timsk1 didr1 ddre acsr es) :=
    run_preserves HighWordInv highWordInv_step es _
      (highWordInv_initial tcnt1 tccr1a tccr1b timsk1 didr1 ddre acsr)
  generalize reached tcnt1 tccr1a tccr1b timsk1 didr1 ddre acsr es = s at hinv ⊢
  obtain ⟨hle, hdis⟩ := hinv
  have h16 : s.m_highCount < 2 ^ 16 := by norm_num; omega
  have hl : icr1 % 2 ^ 16 < 2 ^ 16 := Nat.mod_lt _ (by norm_num)
  refine ⟨hle, hdis, Nat.mod_eq_of_lt (by norm_num; omega), ?_, ?_⟩
  · rw [shiftLeft16_mod _ h16, shiftLeft16_eq]
  · rw [shiftLeft16_or _ _ hl]
    have : icr1 % 2 ^ 16 < 65536 := by norm_num at hl; exact hl
    norm_num
    omega

/-- C20: in every state reachable from the initial state (`Value = 0`,
`Period = 0`, high word 0, mode Idle) by any sequence of `setup`, `update`,
`onOverflow` and `onCapture`, `Value ≤ calculateValue Period`; the initial
state itself has `Value = 0`, not the sentinel `calculateValue 0 = 0xFFFFFFFF`. -/
theorem value_le_calculateValue_period (tcnt1 tccr1a tccr1b timsk1 didr1 ddre acsr : Nat)
    (es : List Event) :
    (reached tcnt1 tccr1a tccr1b timsk1 didr1 ddre acsr es).m_value ≤
      calculateValue (reached tcnt1 tccr1a tccr1b timsk1 didr1 ddre acsr es).m_period ∧
    (initialState tcnt1 tccr1a tccr1b timsk1 didr1 ddre acsr).m_value = 0 ∧
    (initialState tcnt1 tccr1a tccr1b timsk1 didr1 ddre acsr).m_period = 0 ∧
    (initialState tcnt1 tccr1a tccr1b timsk1 didr1 ddre acsr).m_highCount = 0 ∧
    (initialState tcnt1 tccr1a tccr1b timsk1 didr1 ddre acsr).m_timerMode = TimerMode.IDLE ∧
    calculateValue (initialState tcnt1 tccr1a tccr1b timsk1 didr1 ddre acsr).m_period =
      0xFFFFFFFF := by
  have h0 : ValueInv (initialState tcnt1 tccr1a tccr1b timsk1 didr1 ddre acsr) := by
    show 0 ≤ calculateValue 0
    exact Nat.zero_le _
  exact ⟨run_preserves ValueInv valueInv_step es _ h0, rfl, rfl, rfl, rfl, calculateValue_zero⟩

/-! ## The hardware invariant -/

theorem timerRunning_of_clockSelect_one (s : State) (h : clockSelect s = 1) :
    timerRunning s = true := by
  unfold timerRunning
  rw [h]
  decide

theorem timerRunning_of_clockSelect_zero (s : State) (h : clockSelect s = 0) :
    timerRunning s = false := by
  unfold timerRunning
  rw [h]
  decide

theorem hardwareInv_discharging (s : State) (hm : s.m_timerMode = TimerMode.DISCHARGING)
    (hcs : clockSelect s = 1) (hc : captureEnabled s = false)
    (hp : pinDischarging s = true) : HardwareInv s := by
  have hr := timerRunning_of_clockSelect_one s hcs
  refine ⟨?_, ?_, ?_, fun _ => hcs⟩
  · rw [hr, hm]; simp
  · rw [hc, hm]; simp
  · rw [hp, hm]; simp

theorem hardwareInv_charging (s : State) (hm : s.m_timerMode = TimerMode.CHARGING)
    (hcs : clockSelect s = 1) (hc : captureEnabled s = true)
    (hp : pinDischarging s = false) : HardwareInv s := by
  have hr := timerRunning_of_clockSelect_one s hcs
  refine ⟨?_, ?_, ?_, fun _ => hcs⟩
  · rw [hr, hm]; simp
  · rw [hc, hm]; simp
  · rw [hp, hm]; simp

theorem hardwareInv_idle (s : State) (hm : s.m_timerMode = TimerMode.IDLE)
    (hcs : clockSelect s = 0) (hc : captureEnabled s = false)
    (hp : pinDischarging s = true) : HardwareInv s := by
  have hr := timerRunning_of_clockSelect_zero s hcs
  refine ⟨?_, ?_, ?_, ?_⟩
  · rw [hr, hm]; simp
  · rw [hc, hm]; simp
  · rw [hp, hm]; simp
  · rw [hr]; intro h; cases h

/-- The invariant reads only the mode and the three registers. -/
theorem hardwareInv_congr (s t : State) (hm : t.m_timerMode = s.m_timerMode)
    (hb : t.TCCR1B = s.TCCR1B) (ha : t.ACSR = s.ACSR) (hd : t.DDRE = s.DDRE)
    (h : HardwareInv s) : HardwareInv t := by
  unfold HardwareInv timerRunning clockSelect captureEnabled pinDischarging at h ⊢
  rw [hm, hb, ha, hd]
  exact h

theorem hardwareInv_startDischargeCycle (s : State) (h : clockSelect s = 0) :
    HardwareInv (startDischargeCycle s) :=
  hardwareInv_discharging _ rfl (startDischargeCycle_clockSelect s h)
    (startDischargeCycle_captureEnabled s) (startDischargeCycle_pinDischarging s)

theorem hardwareInv_startChargeCycle (s : State) : HardwareInv (startChargeCycle s) := by
  have hcs : clockSelect (startChargeCycle s) = 1 := stop_start_clockSelect s.TCCR1B
  apply hardwareInv_charging _ rfl hcs
  · show ((s.ACSR ||| _BV ACIC) % 256).testBit ACIC = true
    rw [testBit_set]
    simp [ACIC]
  · show (s.DDRE &&& not8 (_BV DDE6)).testBit DDE6 = false
    rw [testBit_clear]
    simp

theorem hardwareInv_setup (s : State) : HardwareInv (setup s) := by
  rw [setup_eq]
  apply hardwareInv_startDischargeCycle
  show ((0 ||| _BV ICES1) % 256) &&& 7 = 0
  decide

theorem hardwareInv_onCapture (s : State) (icr1 : Nat) : HardwareInv (onCapture s icr1) :=
  hardwareInv_startDischargeCycle _ (and_not8_seven s.TCCR1B)

theorem hardwareInv_onOverflow (s : State) (h : HardwareInv s) :
    HardwareInv (onOverflow s) := by
  by_cases hm : s.m_timerMode = TimerMode.DISCHARGING
  · rw [onOverflow_discharging s hm]
    obtain ⟨_, hc, hp, _⟩ := h
    rw [hm] at hc hp
    have hcs : clockSelect { stopTimer s with m_timerMode := TimerMode.IDLE } = 0 :=
      and_not8_seven s.TCCR1B
    apply hardwareInv_idle _ rfl hcs
    · show captureEnabled s = false
      cases hce : captureEnabled s with
      | false => rfl
      | true => exact absurd (hc.1 hce) (by decide)
    · show pinDischarging s = true
      cases hpd : pinDischarging s with
      | true => rfl
      | false => exact absurd (hp.1 hpd) (by decide)
  · cases hto : timeoutReached ((s.m_highCount + 1) % 2 ^ 16) with
    | true =>
      rw [onOverflow_timeout s hm hto]
      exact hardwareInv_startDischargeCycle _ (and_not8_seven s.TCCR1B)
    | false =>
      obtain ⟨hmode, _, _, _, hb, ha, hd⟩ := onOverflow_provisional_frame s hm hto
      exact hardwareInv_congr s _ hmode hb ha hd h

theorem hardwareInv_step (s : State) (e : Event) (h : HardwareInv s) :
    HardwareInv (step s e) := by
  cases e with
  | setup => exact hardwareInv_setup s
  | update =>
    show HardwareInv (update s)
    by_cases hi : s.m_timerMode = TimerMode.IDLE
    · rw [update_idle s hi]
      exact hardwareInv_startChargeCycle s
    · rw [update_not_idle s hi]
      exact h
  | overflow => exact hardwareInv_onOverflow s h
  | capture icr1 => exact hardwareInv_onCapture s icr1

/-- C19: in every state reached after `setup` (from any prior state) by any
sequence of `update`, `onOverflow` and `onCapture` (and further `setup`
calls), the timer is running if and only if the mode is not Idle, the capture
trigger is enabled if and only if the pin is in charge mode if and only if
the mode is Charging, and a running timer has the prescaler bits `001`. -/
theorem hardware_follows_mode (s0 : State) (es : List Event) :
    (timerRunning (run (setup s0) es) = true ↔
      (run (setup s0) es).m_timerMode ≠ TimerMode.IDLE) ∧
    (captureEnabled (run (setup s0) es) = true ↔
      pinDischarging (run (setup s0) es) = false) ∧
    (pinDischarging (run (setup s0) es) = false ↔
      (run (setup s0) es).m_timerMode = TimerMode.CHARGING) ∧
    (captureEnabled (run (setup s0) es) = true ↔
      (run (setup s0) es).m_timerMode = TimerMode.CHARGING) ∧
    (timerRunning (run (setup s0) es) = true → clockSelect (run (setup s0) es) = 1) := by
  have hinv : HardwareInv (run (setup s0) es) :=
    run_preserves HardwareInv hardwareInv_step es _ (hardwareInv_setup s0)
  obtain ⟨hr, hc, hp, hcs⟩ := hinv
  exact ⟨hr, hc.trans hp.symm, hp, hc, hcs⟩

/-! ## The accessors -/

/-- Between its `cli` and `sei` the accessor `getValue` reads the stored value;
it returns that value, leaves the interrupt flag set and changes no other
field.  (The accessor run without preemption; `getValueC` below is the same
accessor with the handlers allowed to interrupt it.) -/
theorem getValue_sequential (s : State) :
    (getValue s).1 = s.m_value ∧
    issued s (getValue s).2 = [HwCall.cli, HwCall.sei] ∧
    (getValue s).2 = { s with SREG_I := true, trace := s.trace ++ [HwCall.cli, HwCall.sei] } := by
  refine ⟨rfl, issued_append _ _ _ ?_, ?_⟩
  · simp [getValue]
  · simp [getValue]

/-- The accessor `getPeriod` returns the stored period and touches nothing:
it issues neither `cli` nor `sei`. -/
theorem getPeriod_sequential (s : State) :
    (getPeriod s).1 = s.m_period ∧ (getPeriod s).2 = s ∧ issued s (getPeriod s).2 = [] :=
  ⟨rfl, rfl, issued_self s⟩

/-- C16, the code at the failing input: called in the sample idle state with
interrupts enabled, `getPeriod` returns the stored `Period` but issues no
`cli` and no `sei`, and the interrupt flag is set throughout, whereas
`getValue` in the same state brackets its read with `cli` and `sei`. -/
theorem getPeriod_without_critical_section :
    idleSample.SREG_I = true ∧
    (getPeriod idleSample).1 = idleSample.m_period ∧
    issued idleSample (getPeriod idleSample).2 = [] ∧
    (getPeriod idleSample).2.SREG_I = true ∧
    issued idleSample (getValue idleSample).2 = [HwCall.cli, HwCall.sei] := by
  refine ⟨rfl, rfl, ?_, rfl, ?_⟩
  · exact issued_self idleSample
  · exact issued_append _ _ _ rfl

/-! ## The accessors under preemption -/

/-- Four bytes, least significant first, assemble to the 32-bit value they
were taken from. -/
theorem bytes_assemble (v : Nat) (hv : v < 2 ^ 32) :
    byteOf v 0 + 256 * byteOf v 1 + 65536 * byteOf v 2 + 16777216 * byteOf v 3 = v := by
  unfold byteOf
  simp only [Nat.shiftRight_eq_div_pow]
  norm_num at hv ⊢
  omega

/-- With the interrupt flag clear no handler runs. -/
theorem preempt_masked (s : State) (irqs : List Irq) (h : s.SREG_I = false) :
    preempt s irqs = s := by
  simp [preempt, h]

/-- With the interrupt flag set the handlers run in order. -/
theorem preempt_enabled (s : State) (irqs : List Irq) (h : s.SREG_I = true) :
    preempt s irqs = irqs.foldl handle s := by
  simp [preempt, h]

/-- A read with the interrupt flag clear sees one state throughout. -/
theorem readField_masked (field : State → Nat) (s : State) (p1 p2 p3 : List Irq)
    (h : s.SREG_I = false) (hv : field s < 2 ^ 32) :
    readField field s p1 p2 p3 = (field s, s) := by
  unfold readField
  simp only [preempt_masked s _ h]
  rw [bytes_assemble (field s) hv]

/-- Under preemption `getValue` behaves as without it. -/
theorem getValueC_eq_getValue (s : State) (p1 p2 p3 : List Irq) (hv : s.m_value < 2 ^ 32) :
    getValueC s p1 p2 p3 = getValue s := by
  have h := readField_masked State.m_value
    { s with SREG_I := false, trace := s.trace ++ [HwCall.cli] } p1 p2 p3 rfl hv
  simp only [getValueC, h, getValue]

/-- The unprotected read of `getPeriod` can be torn: with the stored period
65535 and high word 1, a capture with `ICR1 = 0` between the first and the
second byte load stores the period 65536, and the read returns 65791, which
is neither. -/
theorem getPeriodC_torn :
    idleSample.SREG_I = true ∧
    (getPeriodC { idleSample with m_period := 65535, m_highCount := 1 }
      [Irq.capture 0] [] []).1 = 65791 ∧
    (onCapture { idleSample with m_period := 65535, m_highCount := 1 } 0).m_period = 65536 := by
  refine ⟨rfl, ?_, ?_⟩ <;> decide

/-- C15: `getValue` returns the latest stored `Value` as an atomic snapshot.
Whatever interrupt requests are raised between the byte loads of its read, it
returns exactly the value stored when it was called, never a mixture of old
and new bytes, because the loads run with the interrupt flag clear; the flag
is set again right after the read, the calls issued are `cli` then `sei`, and
no engine field is changed.  The protection is what prevents tearing: the
same four loads with interrupts enabled return 511 when a capture replaces
the stored value 255 by 256 after the first load. -/
theorem getValue_never_torn (s : State) (p1 p2 p3 : List Irq) (hv : s.m_value < 2 ^ 32) :
    (getValueC s p1 p2 p3).1 = s.m_value ∧
    getValueC s p1 p2 p3 = getValue s ∧
    issued s (getValueC s p1 p2 p3).2 = [HwCall.cli, HwCall.sei] ∧
    (getValueC s p1 p2 p3).2.SREG_I = true ∧
    (getValueC s p1 p2 p3).2.m_value = s.m_value ∧
    (getValueC s p1 p2 p3).2.m_period = s.m_period ∧
    (getValueC s p1 p2 p3).2.m_highCount = s.m_highCount ∧
    (getValueC s p1 p2 p3).2.m_timerMode = s.m_timerMode ∧
    ((chargingAt 13 255).SREG_I = true ∧
      (chargingAt 13 255).m_value = 255 ∧
      (onCapture (chargingAt 13 255) 41782).m_value = 256 ∧
      (readField State.m_value (chargingAt 13 255) [Irq.capture 41782] [] []).1 = 511) := by
  rw [getValueC_eq_getValue s p1 p2 p3 hv]
  refine ⟨rfl, rfl, issued_append _ _ _ ?_, rfl, rfl, rfl, rfl, rfl, rfl, rfl, ?_, ?_⟩
  · simp [getValue]
  · decide
  · decide

/-- Witness of C15: the sample idle state (stored value 1000) with a capture
raised after the first byte load and an overflow after the second. -/
theorem getValue_never_torn_witness :
    idleSample.m_value < 2 ^ 32 ∧
    (getValueC idleSample [Irq.capture 5] [Irq.overflow] []).1 = idleSample.m_value ∧
    getValueC idleSample [Irq.capture 5] [Irq.overflow] [] = getValue idleSample ∧
    issued idleSample (getValueC idleSample [Irq.capture 5] [Irq.overflow] []).2 =
      [HwCall.cli, HwCall.sei] ∧
    (getValueC idleSample [Irq.capture 5] [Irq.overflow] []).2.SREG_I = true ∧
    (getValueC idleSample [Irq.capture 5] [Irq.overflow] []).2.m_value = idleSample.m_value ∧
    (getValueC idleSample [Irq.capture 5] [Irq.overflow] []).2.m_period =
      idleSample.m_period ∧
    (getValueC idleSample [Irq.capture 5] [Irq.overflow] []).2.m_highCount =
      idleSample.m_highCount ∧
    (getValueC idleSample [Irq.capture 5] [Irq.overflow] []).2.m_timerMode =
      idleSample.m_timerMode ∧
    ((chargingAt 13 255).SREG_I = true ∧
      (chargingAt 13 255).m_value = 255 ∧
      (onCapture (chargingAt 13 255) 41782).m_value = 256 ∧
      (readField State.m_value (chargingAt 13 255) [Irq.capture 41782] [] []).1 = 511) :=
  ⟨by decide,
    getValue_never_torn idleSample [Irq.capture 5] [Irq.overflow] [] (by decide)⟩

end CapacitiveCurrent
